import Mathlib

/-!
Verification development for the VETTING dual-LLM orchestration framework.

The core package of the repository is exercised by its test suite
(`tests/test_framework.py`, `tests/test_models.py`, `tests/test_config.py`);
the framework itself (`vetting_python/core/framework.py`,
`vetting_python/core/models.py`, `vetting_python/config/builder.py`) is not
present in the source tree, so the definitions below are modelled from the
natural-language specification (spec.md) and are checked for consistency with
the expectations recorded in the test files.

Conventions of the shallow embedding:
- token counts are `Nat`; monetary cost is `ℚ` (the summation structure of
  cost aggregation is what the claims are about, not float rounding);
- fallible construction returns `Except String`;
- the provider adapter is an oracle `Nat → Except String GenResult` giving
  the outcome of the n-th provider call of a `process` invocation (mirroring
  the `side_effect` call scripts used by the test suite), together with a
  deterministic cost table `String → Usage → ℚ`;
- `process` additionally returns the trace of provider calls it made, so
  that claims about "exactly N chat calls and M verification calls" are
  statable.
-/

/-! ## Basic character-list scanning primitives -/

/-- Boolean prefix test on character lists. -/
def isPrefixOfL : List Char → List Char → Bool
  | [], _ => true
  | _ :: _, [] => false
  | a :: as, b :: bs => a == b && isPrefixOfL as bs

/-- Boolean substring containment on character lists: `containsSub hay needle`
is true iff `needle` occurs contiguously somewhere in `hay`. -/
def containsSub (hay needle : List Char) : Bool :=
  match hay with
  | [] => isPrefixOfL needle []
  | _ :: t => isPrefixOfL needle hay || containsSub t needle

/-- Character-list obtained by lowercasing every character of a string. -/
def lowerData (t : String) : List Char := t.data.map Char.toLower

/-! ## Data model: Usage -/

/-- Modelled from the spec: `Usage` is the token-count value type
{promptTokens, completionTokens, totalTokens : non-negative integers}. -/
structure Usage where
  promptTokens : Nat
  completionTokens : Nat
  totalTokens : Nat
deriving DecidableEq, Repr

/-- Modelled from the spec: Usage supports pairwise (componentwise) addition. -/
def Usage.add (a b : Usage) : Usage :=
  ⟨a.promptTokens + b.promptTokens, a.completionTokens + b.completionTokens,
    a.totalTokens + b.totalTokens⟩

instance : Add Usage := ⟨Usage.add⟩

/-- The zero usage (identity of addition). -/
def Usage.zero : Usage := ⟨0, 0, 0⟩

/-! ## Data model: ModelConfig, ContextItem, VettingConfig -/

/-- Modelled from the spec: `ModelConfig` = {modelId, temperature, maxTokens,
optional topP}; temperature is modelled as a rational. -/
structure ModelConfig where
  modelId : String
  temperature : ℚ
  maxTokens : Nat
  topP : Option ℚ
deriving DecidableEq, Repr

/-- Python-like values, sufficient to express the `question` / `answerKey`
mappings of a `ContextItem` (a value is either a scalar string, a number, a
list, or a string-keyed mapping). -/
inductive PyValue where
  | str : String → PyValue
  | num : Nat → PyValue
  | list : List PyValue → PyValue
  | dict : List (String × PyValue) → PyValue

/-- Whether a `PyValue` is a mapping that contains the given key. -/
def PyValue.isDictWith (v : PyValue) (k : String) : Bool :=
  match v with
  | .dict entries => entries.any (fun p => p.fst == k)
  | _ => false

/-- Modelled from the spec: `ContextItem` bundles a question mapping and an
answer-key mapping. -/
structure ContextItem where
  question : PyValue
  answerKey : PyValue

/-- The validation message raised for a malformed context item question
(as matched by `tests/test_models.py`). -/
def contextItemErrorMsg : String :=
  "Context item question must be a dict with \x27text\x27 field"

/-- Modelled from the spec: `ContextItem` construction fails with a validation
error if `question` is not a mapping with a `text` field; otherwise the
question and answer key are stored unchanged. -/
def ContextItem.make (question answerKey : PyValue) : Except String ContextItem :=
  if question.isDictWith "text" then .ok ⟨question, answerKey⟩
  else .error contextItemErrorMsg

/-- Modelled from the spec: the two modes of the framework. -/
inductive Mode where
  | chat
  | vetting
deriving DecidableEq, Repr

/-- Modelled from the spec: `VettingConfig` parameter bundle. -/
structure VettingConfig where
  mode : Mode
  chatModel : ModelConfig
  verificationModel : Option ModelConfig
  contextItems : List ContextItem
  maxAttempts : Nat
  enableEducationalRules : Bool
  enableSafetyPrefix : Bool
  sessionId : Option String
  userId : Option String

/-- Modelled from the spec: the verification model auto-derived from the chat
model in vetting mode — same model id, temperature forced to 0.1 and
maxTokens forced to 512. -/
def deriveVerificationModel (chat : ModelConfig) : ModelConfig :=
  { chat with temperature := 1/10, maxTokens := 512 }

/-- Modelled from the spec: `VettingConfig` construction. In vetting mode an
absent verification model is auto-derived from the chat model; in chat mode
the verification model is forced to absent regardless of input. -/
def VettingConfig.make (mode : Mode) (chatModel : ModelConfig)
    (verificationModel : Option ModelConfig) (contextItems : List ContextItem)
    (maxAttempts : Nat) (enableEducationalRules : Bool) (enableSafetyPrefix : Bool)
    (sessionId : Option String) (userId : Option String) : VettingConfig :=
  match mode with
  | .chat =>
      ⟨.chat, chatModel, none, contextItems, maxAttempts,
        enableEducationalRules, enableSafetyPrefix, sessionId, userId⟩
  | .vetting =>
      let vm := match verificationModel with
        | some m => m
        | none => deriveVerificationModel chatModel
      ⟨.vetting, chatModel, some vm, contextItems, maxAttempts,
        enableEducationalRules, enableSafetyPrefix, sessionId, userId⟩

/-! ## Verification interpreter -/

/-- Modelled from the spec: `checkVerification` — fail-closed interpretation of
the verification model output. Empty or whitespace-only text fails; a
case-insensitive occurrence of the fail token fails; otherwise a
case-insensitive occurrence of the pass token passes; anything else fails. -/
def checkVerification (text : String) : Bool :=
  if text.data.all Char.isWhitespace then false
  else if containsSub (lowerData text) "fail".data then false
  else if containsSub (lowerData text) "pass".data then true
  else false

/-- Case-insensitive occurrence of a token in a text: both sides lowercased. -/
def tokenOccursCI (tok text : String) : Bool :=
  containsSub (text.data.map Char.toLower) (tok.data.map Char.toLower)

/-- Reference policy for the verification interpreter, following the words of
the specification clause by clause: (a) empty or whitespace-only → false;
(b) `FAIL` occurs case-insensitively → false; (c) `PASS` occurs
case-insensitively → true; (d) otherwise → false. -/
def checkVerificationPolicy (text : String) : Bool :=
  if text.data.all Char.isWhitespace then false
  else if tokenOccursCI "FAIL" text then false
  else if tokenOccursCI "PASS" text then true
  else false

/-! ## Safety-prefix extractor -/

/-- The fixed sentinel token marking a safety-triggered chat response. -/
def SAFETY_SENTINEL : String := "SAFETY_PREFIX:"

/-- Character list of the sentinel token. -/
def sentinelChars : List Char := SAFETY_SENTINEL.data

/-- Drop leading whitespace characters from a character list. -/
def dropWhitespaceL : List Char → List Char
  | [] => []
  | c :: cs => if c.isWhitespace then dropWhitespaceL cs else c :: cs

/-- Modelled from the spec: `extractSafetyPrefix` detects the fixed sentinel
token at the start of the text; if present it strips the marker and its
immediate whitespace separator and reports triggered, otherwise it returns
the text unchanged. Case-sensitive to the exact sentinel. -/
def extractSafetyPrefix (text : String) : String × Bool :=
  if isPrefixOfL sentinelChars text.data then
    (⟨dropWhitespaceL (text.data.drop sentinelChars.length)⟩, true)
  else (text, false)

/-! ## Orchestration loop -/

/-- Outcome of a single successful provider `generateResponse` call:
content, usage, and the provider-reported safety signal. -/
structure GenResult where
  content : String
  usage : Usage
  safetySignal : Bool

/-- Which role a provider call served. -/
inductive CallKind where
  | chat
  | verification
deriving DecidableEq, Repr

/-- Trace record of one provider call actually made by `process`. -/
structure CallRecord where
  kind : CallKind
  modelId : String
  content : String
  usage : Usage
  cost : ℚ

/-- Whether a trace record is a chat call. -/
def CallRecord.isChat (r : CallRecord) : Bool :=
  match r.kind with
  | .chat => true
  | .verification => false

/-- Whether a trace record is a verification call. -/
def CallRecord.isVerification (r : CallRecord) : Bool :=
  match r.kind with
  | .chat => false
  | .verification => true

/-- Number of chat calls in a trace. -/
def countChat (l : List CallRecord) : Nat := l.countP CallRecord.isChat

/-- Number of verification calls in a trace. -/
def countVer (l : List CallRecord) : Nat := l.countP CallRecord.isVerification

/-- Modelled from the spec: the stop-reason terminal classification. -/
inductive StopReason where
  | VERIFICATION_PASSED
  | MAX_ATTEMPTS_REACHED
  | SAFETY_TRIGGERED
  | GENERATION_ERROR
  | VERIFICATION_ERROR
  | NOT_APPLICABLE_CHAT_MODE
deriving DecidableEq, Repr

/-- Modelled from the spec: the per-iteration attempt record. -/
structure Attempt where
  chatResponse : String
  verificationOutput : String
  chatUsage : Usage
  verificationUsage : Usage
  chatCost : ℚ
  verificationCost : ℚ
  verificationPassed : Bool

/-- Modelled from the spec: the final `VettingResponse` value. -/
structure VettingResponse where
  content : String
  mode : Mode
  requiresAttention : Bool
  verificationPassed : Option Bool
  attemptCount : Nat
  attempts : List Attempt
  stopReason : StopReason
  totalCost : ℚ
  totalUsage : Usage
  chatUsage : Usage
  verificationUsage : Usage
  chatModelUsed : String
  verificationModelUsed : Option String
  sessionId : Option String
  userId : Option String

/-- Model id used for verification calls (the configured verification model,
falling back to the chat model when absent). -/
def verModelId (cfg : VettingConfig) : String :=
  match cfg.verificationModel with
  | some m => m.modelId
  | none => cfg.chatModel.modelId

/-- Trace record for a chat call with the given outcome, costed through the
provider cost table. -/
def chatRecord (cfg : VettingConfig) (cost : String → Usage → ℚ) (r : GenResult) :
    CallRecord :=
  ⟨.chat, cfg.chatModel.modelId, r.content, r.usage, cost cfg.chatModel.modelId r.usage⟩

/-- Trace record for a verification call with the given outcome. -/
def verRecord (cfg : VettingConfig) (cost : String → Usage → ℚ) (r : GenResult) :
    CallRecord :=
  ⟨.verification, verModelId cfg, r.content, r.usage, cost (verModelId cfg) r.usage⟩

/-- Whether the safety check fires on a chat outcome: the safety-prefix
extractor triggers on the text, or the provider reported a safety signal. -/
def safetyFires (r : GenResult) : Bool :=
  (extractSafetyPrefix r.content).2 || r.safetySignal

/-- Modelled from the spec: the vetting-mode attempt loop. `fuel` is the
number of attempts still available (initially `maxAttempts`), `attempt` the
1-based number of the current attempt, `callIdx` the index of the next
provider call. Accumulators carry the attempt log, the call trace, and the
running cost/usage sums. Provider errors propagate unmodified. -/
def vettingLoop (cfg : VettingConfig) (gen : Nat → Except String GenResult)
    (cost : String → Usage → ℚ) (fuel attempt callIdx : Nat)
    (accAttempts : List Attempt) (accCalls : List CallRecord)
    (accCost : ℚ) (accUsage accChat accVer : Usage) :
    Except String (VettingResponse × List CallRecord) :=
  match fuel with
  | 0 =>
      .ok ({ content := "", mode := .vetting, requiresAttention := true,
             verificationPassed := some false, attemptCount := attempt - 1,
             attempts := accAttempts, stopReason := .MAX_ATTEMPTS_REACHED,
             totalCost := accCost, totalUsage := accUsage, chatUsage := accChat,
             verificationUsage := accVer, chatModelUsed := cfg.chatModel.modelId,
             verificationModelUsed := some (verModelId cfg),
             sessionId := cfg.sessionId, userId := cfg.userId }, accCalls)
  | fuel' + 1 =>
      match gen callIdx with
      | .error e => .error e
      | .ok rc =>
        if safetyFires rc then
          .ok ({ content := (extractSafetyPrefix rc.content).1, mode := .vetting,
                 requiresAttention := true, verificationPassed := none,
                 attemptCount := attempt, attempts := accAttempts,
                 stopReason := .SAFETY_TRIGGERED,
                 totalCost := accCost + (chatRecord cfg cost rc).cost,
                 totalUsage := accUsage + rc.usage, chatUsage := accChat + rc.usage,
                 verificationUsage := accVer, chatModelUsed := cfg.chatModel.modelId,
                 verificationModelUsed := some (verModelId cfg),
                 sessionId := cfg.sessionId, userId := cfg.userId },
               accCalls ++ [chatRecord cfg cost rc])
        else
          match gen (callIdx + 1) with
          | .error e => .error e
          | .ok rv =>
            let att : Attempt :=
              ⟨rc.content, rv.content, rc.usage, rv.usage,
                (chatRecord cfg cost rc).cost, (verRecord cfg cost rv).cost,
                checkVerification rv.content⟩
            if checkVerification rv.content then
              .ok ({ content := (extractSafetyPrefix rc.content).1, mode := .vetting,
                     requiresAttention := false, verificationPassed := some true,
                     attemptCount := attempt, attempts := accAttempts ++ [att],
                     stopReason := .VERIFICATION_PASSED,
                     totalCost := accCost + (chatRecord cfg cost rc).cost +
                       (verRecord cfg cost rv).cost,
                     totalUsage := accUsage + rc.usage + rv.usage,
                     chatUsage := accChat + rc.usage,
                     verificationUsage := accVer + rv.usage,
                     chatModelUsed := cfg.chatModel.modelId,
                     verificationModelUsed := some (verModelId cfg),
                     sessionId := cfg.sessionId, userId := cfg.userId },
                   accCalls ++ [chatRecord cfg cost rc, verRecord cfg cost rv])
            else if fuel' = 0 then
              .ok ({ content := (extractSafetyPrefix rc.content).1, mode := .vetting,
                     requiresAttention := true, verificationPassed := some false,
                     attemptCount := attempt, attempts := accAttempts ++ [att],
                     stopReason := .MAX_ATTEMPTS_REACHED,
                     totalCost := accCost + (chatRecord cfg cost rc).cost +
                       (verRecord cfg cost rv).cost,
                     totalUsage := accUsage + rc.usage + rv.usage,
                     chatUsage := accChat + rc.usage,
                     verificationUsage := accVer + rv.usage,
                     chatModelUsed := cfg.chatModel.modelId,
                     verificationModelUsed := some (verModelId cfg),
                     sessionId := cfg.sessionId, userId := cfg.userId },
                   accCalls ++ [chatRecord cfg cost rc, verRecord cfg cost rv])
            else
              vettingLoop cfg gen cost fuel' (attempt + 1) (callIdx + 2)
                (accAttempts ++ [att])
                (accCalls ++ [chatRecord cfg cost rc, verRecord cfg cost rv])
                (accCost + (chatRecord cfg cost rc).cost + (verRecord cfg cost rv).cost)
                (accUsage + rc.usage + rv.usage) (accChat + rc.usage)
                (accVer + rv.usage)

/-- Modelled from the spec: the public entry point `process`. In chat mode it
performs exactly one chat call then the safety check; in vetting mode it runs
the attempt loop. The provider oracle `gen` gives the outcome of the n-th
provider call; `cost` is the provider cost table. The returned trace lists
every provider call actually made. -/
def process (cfg : VettingConfig) (gen : Nat → Except String GenResult)
    (cost : String → Usage → ℚ) :
    Except String (VettingResponse × List CallRecord) :=
  match cfg.mode with
  | .chat =>
    match gen 0 with
    | .error e => .error e
    | .ok rc =>
      if safetyFires rc then
        .ok ({ content := (extractSafetyPrefix rc.content).1, mode := .chat,
               requiresAttention := true, verificationPassed := none,
               attemptCount := 1, attempts := [], stopReason := .SAFETY_TRIGGERED,
               totalCost := (chatRecord cfg cost rc).cost, totalUsage := rc.usage,
               chatUsage := rc.usage, verificationUsage := Usage.zero,
               chatModelUsed := cfg.chatModel.modelId,
               verificationModelUsed := none,
               sessionId := cfg.sessionId, userId := cfg.userId },
             [chatRecord cfg cost rc])
      else
        .ok ({ content := (extractSafetyPrefix rc.content).1, mode := .chat,
               requiresAttention := false, verificationPassed := none,
               attemptCount := 1, attempts := [],
               stopReason := .NOT_APPLICABLE_CHAT_MODE,
               totalCost := (chatRecord cfg cost rc).cost, totalUsage := rc.usage,
               chatUsage := rc.usage, verificationUsage := Usage.zero,
               chatModelUsed := cfg.chatModel.modelId,
               verificationModelUsed := none,
               sessionId := cfg.sessionId, userId := cfg.userId },
             [chatRecord cfg cost rc])
  | .vetting =>
      vettingLoop cfg gen cost cfg.maxAttempts 1 0 [] [] 0 Usage.zero Usage.zero
        Usage.zero

/-! ## Summations over call traces -/

/-- Sum of the provider cost-table results over a call trace. -/
def sumCost (cost : String → Usage → ℚ) (l : List CallRecord) : ℚ :=
  l.foldr (fun r acc => cost r.modelId r.usage + acc) 0

/-- Sum of the per-call token totals over a call trace. -/
def sumTokens (l : List CallRecord) : Nat :=
  l.foldr (fun r acc => r.usage.totalTokens + acc) 0

/-- Componentwise sum of the per-call usages over a call trace. -/
def sumUsage (l : List CallRecord) : Usage :=
  l.foldr (fun r acc => r.usage + acc) Usage.zero

/-! ## Concrete sample data used by witnesses and the counterexample -/

/-- Sample chat model configuration. -/
def mcSample : ModelConfig := ⟨"gpt-4o-mini", 7/10, 1024, none⟩

/-- Sample flat cost table. -/
def costSample : String → Usage → ℚ := fun _ _ => 15/10000

/-- Sample chat-mode configuration. -/
def cfgChatSample : VettingConfig :=
  VettingConfig.make .chat mcSample none [] 3 false true none none

/-- Sample vetting-mode configuration (three attempts, auto-derived
verification model). -/
def cfgVetSample : VettingConfig :=
  VettingConfig.make .vetting mcSample none [] 3 true true none none

/-- Sample benign chat outcome. -/
def rcBenign : GenResult :=
  ⟨"Hello! How can I help you today?", ⟨10, 8, 18⟩, false⟩

/-- Provider oracle answering the single chat call of a chat-mode run. -/
def genChatOnly : Nat → Except String GenResult := fun n =>
  match n with
  | 0 => .ok rcBenign
  | _ => .error "no more calls scripted"

/-- Provider oracle for a vetting run that passes on the first attempt:
one chat call and one verification call answering PASS. -/
def genPassFirst : Nat → Except String GenResult := fun n =>
  match n with
  | 0 => .ok ⟨"Chat response", ⟨100, 50, 150⟩, false⟩
  | 1 => .ok ⟨"PASS: Good response", ⟨60, 30, 90⟩, false⟩
  | _ => .error "no more calls scripted"

/-- Provider oracle for a vetting run whose three attempts all fail
verification (the scenario of the max-attempts test). -/
def genAllFail : Nat → Except String GenResult := fun n =>
  match n with
  | 0 => .ok ⟨"Direct answer 1", ⟨80, 40, 120⟩, false⟩
  | 1 => .ok ⟨"FAIL: Too direct", ⟨50, 25, 75⟩, false⟩
  | 2 => .ok ⟨"Direct answer 2", ⟨85, 42, 127⟩, false⟩
  | 3 => .ok ⟨"FAIL: Still too direct", ⟨52, 26, 78⟩, false⟩
  | 4 => .ok ⟨"Direct answer 3", ⟨82, 41, 123⟩, false⟩
  | 5 => .ok ⟨"FAIL: No improvement", ⟨48, 24, 72⟩, false⟩
  | _ => .error "no more calls scripted"

/-- Provider oracle whose chat response repeats the sentinel after the
leading marker. -/
def genDoubleSentinel : Nat → Except String GenResult := fun n =>
  match n with
  | 0 => .ok ⟨"SAFETY_PREFIX: SAFETY_PREFIX: unsafe request", ⟨5, 5, 10⟩, false⟩
  | _ => .error "no more calls scripted"

/-- Chat outcome triggering safety on the second vetting attempt. -/
def rcSafetyMid : GenResult :=
  ⟨"SAFETY_PREFIX: This request involves harmful content.", ⟨50, 25, 75⟩, true⟩

/-- Provider oracle: attempt 1 fails verification cleanly, attempt 2 triggers
safety. -/
def genSafetyMidLoop : Nat → Except String GenResult := fun n =>
  match n with
  | 0 => .ok ⟨"Direct answer", ⟨80, 40, 120⟩, false⟩
  | 1 => .ok ⟨"FAIL: Too direct", ⟨50, 25, 75⟩, false⟩
  | 2 => .ok rcSafetyMid
  | _ => .error "no more calls scripted"

/-! ## Lemmas about Usage addition -/

theorem Usage.add_def (a b : Usage) :
    a + b = ⟨a.promptTokens + b.promptTokens, a.completionTokens + b.completionTokens,
      a.totalTokens + b.totalTokens⟩ := rfl

theorem Usage.add_comm (a b : Usage) : a + b = b + a := by
  cases a; cases b; simp [Usage.add_def, Nat.add_comm]

theorem Usage.add_assoc (a b c : Usage) : a + b + c = a + (b + c) := by
  cases a; cases b; cases c; simp [Usage.add_def, Nat.add_assoc]

theorem Usage.add_zero (a : Usage) : a + Usage.zero = a := by
  cases a; simp [Usage.add_def, Usage.zero]

theorem Usage.zero_add (a : Usage) : Usage.zero + a = a := by
  cases a; simp [Usage.add_def, Usage.zero]

/-! ## Helper lemmas about the scanning primitives -/

theorem mem_of_containsSub {hay : List Char} {c : Char} {cs : List Char}
    (h : containsSub hay (c :: cs) = true) : c ∈ hay := by
  induction hay with
  | nil => simp [containsSub, isPrefixOfL] at h
  | cons h' t ih =>
      rw [containsSub, Bool.or_eq_true] at h
      rcases h with h | h
      · rw [isPrefixOfL, Bool.and_eq_true] at h
        have : c = h' := by simpa using h.1
        simp [this]
      · exact List.mem_cons_of_mem _ (ih h)

theorem toLower_of_isWhitespace {c : Char} (h : c.isWhitespace = true) :
    c.toLower = c := by
  rw [Char.isWhitespace] at h
  simp only [Bool.or_eq_true, decide_eq_true_eq] at h
  rcases h with ((h | h) | h) | h <;> subst h <;> decide

theorem not_whitespace_of_contains_pass {t : String}
    (h : containsSub (lowerData t) "pass".data = true) :
    t.data.all Char.isWhitespace = false := by
  by_contra hw
  rw [Bool.not_eq_false, List.all_eq_true] at hw
  have hdata : "pass".data = 'p' :: "ass".data := by decide
  rw [hdata] at h
  have hmem : 'p' ∈ lowerData t := mem_of_containsSub h
  rw [lowerData, List.mem_map] at hmem
  obtain ⟨d, hd, hdl⟩ := hmem
  have hdw : d.isWhitespace = true := hw d hd
  rw [toLower_of_isWhitespace hdw] at hdl
  subst hdl
  simp at hdw

theorem extractSafetyPrefix_not_triggered {t : String}
    (h : (extractSafetyPrefix t).2 = false) : (extractSafetyPrefix t).1 = t := by
  rw [extractSafetyPrefix] at h ⊢
  by_cases hp : isPrefixOfL sentinelChars t.data
  · simp [hp] at h
  · simp [hp]

/-! ## Claim C1: the verification interpreter matches the ordered policy -/

/-- C1: for every string `t`, `checkVerification` agrees with the reference
policy applied in order (empty or whitespace-only → false; fail token,
case-insensitive → false, taking precedence over a pass token; pass token →
true; otherwise → false), together with the concrete instances recorded in
the specification. -/
theorem checkVerification_matches_policy :
    (∀ t : String, checkVerification t = checkVerificationPolicy t) ∧
    checkVerification "" = false ∧
    checkVerification "Evaluation: FAIL although PASS appears later" = false ∧
    checkVerification "PASS: good" = true ∧
    checkVerification "ambiguous text" = false := by
  refine ⟨?_, by decide, by decide, by decide, by decide⟩
  intro t
  have hf : "FAIL".data.map Char.toLower = "fail".data := by decide
  have hp : "PASS".data.map Char.toLower = "pass".data := by decide
  simp only [checkVerification, checkVerificationPolicy, tokenOccursCI, lowerData,
    hf, hp]

/-! ## Claim C9: Usage addition is a commutative monoid -/

/-- C9: Usage addition is componentwise on promptTokens, completionTokens and
totalTokens, and is commutative, associative, and has the zero usage as
identity. -/
theorem usage_addition_commutative_monoid :
    ∀ a b c : Usage,
      (a + b).promptTokens = a.promptTokens + b.promptTokens ∧
      (a + b).completionTokens = a.completionTokens + b.completionTokens ∧
      (a + b).totalTokens = a.totalTokens + b.totalTokens ∧
      a + b = b + a ∧
      a + b + c = a + (b + c) ∧
      a + Usage.zero = a ∧
      Usage.zero + a = a := by
  intro a b c
  exact ⟨rfl, rfl, rfl, Usage.add_comm a b, Usage.add_assoc a b c,
    Usage.add_zero a, Usage.zero_add a⟩

/-! ## Claim C5: auto-derived verification model in vetting mode -/

/-- C5: every `VettingConfig` constructed with vetting mode and no explicit
verification model gets a present verification model with the chat model id,
temperature 0.1 (= 1/10) and maxTokens 512. -/
theorem vettingConfig_auto_verification_model :
    ∀ (cm : ModelConfig) (ctx : List ContextItem) (n : Nat) (edu safe : Bool)
      (sid uid : Option String),
      ∃ vm : ModelConfig,
        (VettingConfig.make .vetting cm none ctx n edu safe sid uid).verificationModel
            = some vm ∧
          vm.modelId = cm.modelId ∧ vm.temperature = (1 : ℚ)/10 ∧
          vm.maxTokens = 512 := by
  intro cm ctx n edu safe sid uid
  exact ⟨deriveVerificationModel cm, rfl, rfl, rfl, rfl⟩

/-! ## Claim C8: ContextItem question validation -/

/-- C8: constructing a `ContextItem` from a question value that is not a
mapping, or is a mapping without a `text` key, fails with the validation
error; a mapping with a `text` key is accepted and both question and answer
key are stored unchanged. -/
theorem contextItem_question_validation :
    ∀ q ak : PyValue,
      ((∀ es, q ≠ PyValue.dict es) →
        ContextItem.make q ak = .error contextItemErrorMsg) ∧
      (∀ es, q = PyValue.dict es → (∀ p ∈ es, p.1 ≠ "text") →
        ContextItem.make q ak = .error contextItemErrorMsg) ∧
      (∀ es, q = PyValue.dict es → (∃ p ∈ es, p.1 = "text") →
        ContextItem.make q ak = .ok ⟨q, ak⟩) := by
  intro q ak
  refine ⟨?_, ?_, ?_⟩
  · intro hnd
    cases q with
    | str s => rfl
    | num n => rfl
    | list l => rfl
    | dict es => exact absurd rfl (hnd es)
  · intro es hq hnone
    subst hq
    have hany : es.any (fun p => p.fst == "text") = false := by
      rw [List.any_eq_false]
      intro p hp
      simpa using hnone p hp
    simp [ContextItem.make, PyValue.isDictWith, hany]
  · intro es hq hex
    subst hq
    have hany : es.any (fun p => p.fst == "text") = true := by
      rw [List.any_eq_true]
      obtain ⟨p, hp, hpt⟩ := hex
      exact ⟨p, hp, by simpa using hpt⟩
    simp [ContextItem.make, PyValue.isDictWith, hany]

/-- C8 witness: concrete instances of the validation behavior — a mapping
without a `text` key and a non-mapping are rejected with the validation
message, and a mapping with a `text` key is accepted unchanged. -/
theorem contextItem_question_validation_witness :
    ContextItem.make (PyValue.dict [("invalid", PyValue.str "no text field")])
        (PyValue.dict []) = .error contextItemErrorMsg ∧
    ContextItem.make (PyValue.str "not a dict") (PyValue.dict [])
        = .error contextItemErrorMsg ∧
    ContextItem.make
        (PyValue.dict [("text", PyValue.str "What is the capital of France?")])
        (PyValue.dict [])
      = .ok ⟨PyValue.dict [("text", PyValue.str "What is the capital of France?")],
          PyValue.dict []⟩ := by
  refine ⟨?_, ?_, ?_⟩
  · exact (contextItem_question_validation _ _).2.1 _ rfl (by decide)
  · exact (contextItem_question_validation _ _).1 (fun es h => PyValue.noConfusion h)
  · exact (contextItem_question_validation _ _).2.2 _ rfl
      ⟨_, List.mem_singleton.mpr rfl, rfl⟩

/-! ## Claim C10: token matching is substring-based, not whole-word -/

/-- C10: the verification interpreter matches tokens as substrings: any text
whose lowercasing contains `fail` is rejected, any text whose lowercasing
contains `pass` but not `fail` is accepted, and in particular the longer-word
forms `passes` and `fails` are matched even though the literal tokens are
absent. -/
theorem checkVerification_substring_based :
    ∀ t : String,
      (containsSub (lowerData t) "fail".data = true → checkVerification t = false) ∧
      (containsSub (lowerData t) "fail".data = false →
        containsSub (lowerData t) "pass".data = true → checkVerification t = true) ∧
      checkVerification "The response passes all checks." = true ∧
      checkVerification "This response fails verification." = false := by
  intro t
  refine ⟨?_, ?_, by decide, by decide⟩
  · intro hfail
    simp [checkVerification, hfail]
  · intro hfail hpass
    have hw : t.data.all Char.isWhitespace = false :=
      not_whitespace_of_contains_pass hpass
    simp [checkVerification, hw, hfail, hpass]

/-- C10 witness: concrete applications of the substring property — a text
containing both tokens inside longer words is rejected (fail wins), and a
text containing `pass` only inside a longer word is accepted. -/
theorem checkVerification_substring_based_witness :
    checkVerification "unfailing surpassing" = false ∧
    checkVerification "surpassing" = true := by
  constructor
  · exact (checkVerification_substring_based "unfailing surpassing").1 (by decide)
  · exact (checkVerification_substring_based "surpassing").2.1 (by decide) (by decide)

/-! ## Claim C6: chat mode without safety trigger -/

/-- C6: in chat mode, when the safety check does not fire on the chat
response, `process` makes exactly one chat call and no verification call and
returns NOT_APPLICABLE_CHAT_MODE with requiresAttention false, attemptCount
1, no verification verdict, and the chat response as content. -/
theorem chatMode_no_safety :
    ∀ (cfg : VettingConfig) (gen : Nat → Except String GenResult)
      (cost : String → Usage → ℚ) (rc : GenResult),
      cfg.mode = .chat → gen 0 = .ok rc → safetyFires rc = false →
      ∃ resp : VettingResponse,
        process cfg gen cost = .ok (resp, [chatRecord cfg cost rc]) ∧
        resp.stopReason = .NOT_APPLICABLE_CHAT_MODE ∧
        resp.requiresAttention = false ∧
        resp.attemptCount = 1 ∧
        resp.verificationPassed = none ∧
        resp.content = rc.content := by
  intro cfg gen cost rc hmode hgen hsafe
  have htrig : (extractSafetyPrefix rc.content).2 = false := by
    have h2 := hsafe
    simp only [safetyFires, Bool.or_eq_false_iff] at h2
    exact h2.1
  simp only [process, hmode, hgen, hsafe]
  exact ⟨_, rfl, rfl, rfl, rfl, rfl, extractSafetyPrefix_not_triggered htrig⟩

/-- C6 witness: the chat-mode scenario of the test suite, run on the sample
configuration and a one-call script. -/
theorem chatMode_no_safety_witness :
    ∃ resp : VettingResponse,
      process cfgChatSample genChatOnly costSample
          = .ok (resp, [chatRecord cfgChatSample costSample rcBenign]) ∧
        resp.stopReason = .NOT_APPLICABLE_CHAT_MODE ∧
        resp.requiresAttention = false ∧
        resp.attemptCount = 1 ∧
        resp.verificationPassed = none ∧
        resp.content = rcBenign.content :=
  chatMode_no_safety cfgChatSample genChatOnly costSample rcBenign rfl rfl (by decide)

/-! ## Claim C7: provider errors propagate unmodified -/

theorem vettingLoop_error_from_gen :
    ∀ (cfg : VettingConfig) (gen : Nat → Except String GenResult)
      (cost : String → Usage → ℚ) (fuel : Nat),
      ∀ attempt callIdx atts calls accCost accUsage accChat accVer e,
        vettingLoop cfg gen cost fuel attempt callIdx atts calls accCost accUsage
            accChat accVer = .error e →
        ∃ n, gen n = .error e := by
  intro cfg gen cost fuel
  induction fuel with
  | zero =>
      intro attempt callIdx atts calls accCost accUsage accChat accVer e h
      simp [vettingLoop] at h
  | succ fuel' ih =>
      intro attempt callIdx atts calls accCost accUsage accChat accVer e h
      rw [vettingLoop] at h
      cases hg : gen callIdx with
      | error e' =>
          rw [hg] at h
          simp only [Except.error.injEq] at h
          exact ⟨callIdx, by rw [hg, h]⟩
      | ok rc =>
          simp only [hg] at h
          by_cases hs : safetyFires rc
          · simp [hs] at h
          · simp only [Bool.not_eq_true] at hs
            simp only [hs, Bool.false_eq_true, if_false] at h
            cases hg2 : gen (callIdx + 1) with
            | error e' =>
                rw [hg2] at h
                simp only [Except.error.injEq] at h
                exact ⟨callIdx + 1, by rw [hg2, h]⟩
            | ok rv =>
                simp only [hg2] at h
                by_cases hc : checkVerification rv.content
                · simp [hc] at h
                · simp only [Bool.not_eq_true] at hc
                  simp only [hc, Bool.false_eq_true, if_false] at h
                  by_cases hf : fuel' = 0
                  · simp [hf] at h
                  · rw [if_neg hf] at h
                    exact ih _ _ _ _ _ _ _ _ _ h

theorem vettingLoop_reaches_error :
    ∀ (cfg : VettingConfig) (gen : Nat → Except String GenResult)
      (cost : String → Usage → ℚ) (k : Nat),
      ∀ fuel attempt callIdx atts calls accCost accUsage accChat accVer e,
        k < fuel →
        (∀ j, j < k → ∃ rcj, gen (callIdx + 2*j) = .ok rcj ∧
          safetyFires rcj = false) →
        (∀ j, j < k → ∃ rv, gen (callIdx + 2*j + 1) = .ok rv ∧
          checkVerification rv.content = false) →
        (gen (callIdx + 2*k) = .error e ∨
          (∃ rc, gen (callIdx + 2*k) = .ok rc ∧ safetyFires rc = false ∧
            gen (callIdx + 2*k + 1) = .error e)) →
        vettingLoop cfg gen cost fuel attempt callIdx atts calls accCost accUsage
            accChat accVer = .error e := by
  intro cfg gen cost k
  induction k with
  | zero =>
      intro fuel attempt callIdx atts calls accCost accUsage accChat accVer e
        hk hclean hfails herr
      cases fuel with
      | zero => omega
      | succ f =>
          rw [vettingLoop]
          rcases herr with herr | ⟨rc, hrc, hsafe, herr⟩
          · simp only [Nat.mul_zero, Nat.add_zero] at herr
            simp only [herr]
          · simp only [Nat.mul_zero, Nat.add_zero] at hrc herr
            simp only [hrc, hsafe, Bool.false_eq_true, if_false, herr]
  | succ k' ih =>
      intro fuel attempt callIdx atts calls accCost accUsage accChat accVer e
        hk hclean hfails herr
      cases fuel with
      | zero => omega
      | succ f =>
          obtain ⟨rc0, hrc0, hsafe0⟩ := hclean 0 (by omega)
          obtain ⟨rv0, hrv0, hfail0⟩ := hfails 0 (by omega)
          simp only [Nat.mul_zero, Nat.add_zero] at hrc0 hrv0
          have hclean' : ∀ j, j < k' → ∃ rcj, gen (callIdx + 2 + 2*j) = .ok rcj ∧
              safetyFires rcj = false := by
            intro j hj
            have h := hclean (j+1) (by omega)
            rwa [show callIdx + 2*(j+1) = callIdx + 2 + 2*j from by omega] at h
          have hfails' : ∀ j, j < k' → ∃ rv, gen (callIdx + 2 + 2*j + 1) = .ok rv ∧
              checkVerification rv.content = false := by
            intro j hj
            have h := hfails (j+1) (by omega)
            rwa [show callIdx + 2*(j+1) + 1 = callIdx + 2 + 2*j + 1 from by omega]
              at h
          have herr' : gen (callIdx + 2 + 2*k') = .error e ∨
              (∃ rc, gen (callIdx + 2 + 2*k') = .ok rc ∧ safetyFires rc = false ∧
                gen (callIdx + 2 + 2*k' + 1) = .error e) := by
            rcases herr with herr | ⟨rc, hrc, hsafe, herr⟩
            · left
              rwa [show callIdx + 2*(k'+1) = callIdx + 2 + 2*k' from by omega]
                at herr
            · right
              refine ⟨rc, ?_, hsafe, ?_⟩
              · rwa [show callIdx + 2*(k'+1) = callIdx + 2 + 2*k' from by omega]
                  at hrc
              · rwa [show callIdx + 2*(k'+1) + 1 = callIdx + 2 + 2*k' + 1
                  from by omega] at herr
          rw [vettingLoop]
          simp only [hrc0, hsafe0, Bool.false_eq_true, if_false, hrv0, hfail0,
            if_neg (show ¬(f = 0) from by omega)]
          exact ih f (attempt + 1) (callIdx + 2) _ _ _ _ _ _ e (by omega) hclean'
            hfails' herr'

/-- C7: a provider-call error is not caught by `process` — if the first
provider call raises, `process` raises the very same error; if any chat or
verification call of a vetting run reached after clean failed attempts
raises, `process` raises that same error; and conversely every error
returned by `process` is one the provider oracle raised, never a synthesized
response. -/
theorem provider_error_propagates :
    ∀ (cfg : VettingConfig) (gen : Nat → Except String GenResult)
      (cost : String → Usage → ℚ),
      0 < cfg.maxAttempts →
      (∀ e : String, gen 0 = .error e → process cfg gen cost = .error e) ∧
      (∀ (k : Nat) (e : String), cfg.mode = .vetting → k < cfg.maxAttempts →
        (∀ j, j < k → ∃ rcj, gen (2*j) = .ok rcj ∧ safetyFires rcj = false) →
        (∀ j, j < k → ∃ rv, gen (2*j + 1) = .ok rv ∧
          checkVerification rv.content = false) →
        (gen (2*k) = .error e ∨
          (∃ rc, gen (2*k) = .ok rc ∧ safetyFires rc = false ∧
            gen (2*k + 1) = .error e)) →
        process cfg gen cost = .error e) ∧
      (∀ e : String, process cfg gen cost = .error e → ∃ n, gen n = .error e) := by
  intro cfg gen cost hpos
  obtain ⟨m, hm⟩ : ∃ m, cfg.maxAttempts = m + 1 :=
    ⟨cfg.maxAttempts - 1, by omega⟩
  refine ⟨?_, ?_, ?_⟩
  · intro e hgen
    cases hmode : cfg.mode with
    | chat => simp [process, hmode, hgen]
    | vetting => simp [process, hmode, hm, vettingLoop, hgen]
  · intro k e hmode hk hclean hfails herr
    rw [process, hmode]
    refine vettingLoop_reaches_error cfg gen cost k cfg.maxAttempts 1 0 [] [] 0
      Usage.zero Usage.zero Usage.zero e hk ?_ ?_ ?_
    · intro j hj
      simpa using hclean j hj
    · intro j hj
      simpa using hfails j hj
    · rcases herr with herr | ⟨rc, hrc, hsafe, herr⟩
      · left
        simpa using herr
      · exact Or.inr ⟨rc, by simpa using hrc, hsafe, by simpa using herr⟩
  · intro e h
    cases hmode : cfg.mode with
    | chat =>
        rw [process, hmode] at h
        cases hg : gen 0 with
        | error e' =>
            rw [hg] at h
            simp only [Except.error.injEq] at h
            exact ⟨0, by rw [hg, h]⟩
        | ok rc =>
            simp only [hg] at h
            by_cases hs : safetyFires rc
            · simp [hs] at h
            · simp only [Bool.not_eq_true] at hs
              simp [hs] at h
    | vetting =>
        rw [process, hmode] at h
        exact vettingLoop_error_from_gen cfg gen cost _ _ _ _ _ _ _ _ _ _ h

/-- C7 witness: a provider raising "API Error: Rate limit exceeded" on the
first call makes `process` fail with exactly that error. -/
theorem provider_error_propagates_witness :
    process cfgChatSample (fun _ => .error "API Error: Rate limit exceeded")
        costSample = .error "API Error: Rate limit exceeded" :=
  (provider_error_propagates cfgChatSample
      (fun _ => .error "API Error: Rate limit exceeded") costSample
      (by decide)).1 _ rfl

/-! ## Claim C4: totals are summed over every call actually made -/

theorem sumCost_nil (cost : String → Usage → ℚ) : sumCost cost [] = 0 := rfl

theorem sumCost_cons (cost : String → Usage → ℚ) (r : CallRecord)
    (l : List CallRecord) :
    sumCost cost (r :: l) = cost r.modelId r.usage + sumCost cost l := rfl

theorem sumCost_append (cost : String → Usage → ℚ) (l₁ l₂ : List CallRecord) :
    sumCost cost (l₁ ++ l₂) = sumCost cost l₁ + sumCost cost l₂ := by
  induction l₁ with
  | nil => simp [sumCost_nil]
  | cons r t ih => rw [List.cons_append, sumCost_cons, sumCost_cons, ih, add_assoc]

theorem sumUsage_nil : sumUsage [] = Usage.zero := rfl

theorem sumUsage_cons (r : CallRecord) (l : List CallRecord) :
    sumUsage (r :: l) = r.usage + sumUsage l := rfl

theorem sumUsage_append (l₁ l₂ : List CallRecord) :
    sumUsage (l₁ ++ l₂) = sumUsage l₁ + sumUsage l₂ := by
  induction l₁ with
  | nil => rw [List.nil_append, sumUsage_nil, Usage.zero_add]
  | cons r t ih =>
      rw [List.cons_append, sumUsage_cons, sumUsage_cons, ih, Usage.add_assoc]

theorem sumUsage_totalTokens (l : List CallRecord) :
    (sumUsage l).totalTokens = sumTokens l := by
  induction l with
  | nil => rfl
  | cons r t ih =>
      rw [sumUsage_cons, Usage.add_def]
      simpa [sumTokens] using congrArg (r.usage.totalTokens + ·) ih

theorem vettingLoop_totals :
    ∀ (cfg : VettingConfig) (gen : Nat → Except String GenResult)
      (cost : String → Usage → ℚ) (fuel : Nat),
      ∀ attempt callIdx atts calls accCost accUsage accChat accVer resp outCalls,
        accCost = sumCost cost calls →
        accUsage = sumUsage calls →
        vettingLoop cfg gen cost fuel attempt callIdx atts calls accCost accUsage
            accChat accVer = .ok (resp, outCalls) →
        resp.totalCost = sumCost cost outCalls ∧
          resp.totalUsage = sumUsage outCalls := by
  intro cfg gen cost fuel
  induction fuel with
  | zero =>
      intro attempt callIdx atts calls accCost accUsage accChat accVer resp
        outCalls hC hU h
      rw [vettingLoop] at h
      simp only [Except.ok.injEq, Prod.mk.injEq] at h
      obtain ⟨hresp, hcalls⟩ := h
      subst hresp; subst hcalls
      exact ⟨hC, hU⟩
  | succ fuel' ih =>
      intro attempt callIdx atts calls accCost accUsage accChat accVer resp
        outCalls hC hU h
      rw [vettingLoop] at h
      cases hg : gen callIdx with
      | error e => simp [hg] at h
      | ok rc =>
          simp only [hg] at h
          by_cases hs : safetyFires rc = true
          · rw [if_pos hs] at h
            simp only [Except.ok.injEq, Prod.mk.injEq] at h
            obtain ⟨hresp, hcalls⟩ := h
            subst hresp; subst hcalls
            constructor
            · rw [hC, sumCost_append, sumCost_cons, sumCost_nil, add_zero]
              rfl
            · rw [hU, sumUsage_append, sumUsage_cons, sumUsage_nil, Usage.add_zero]
              rfl
          · rw [if_neg hs] at h
            cases hg2 : gen (callIdx + 1) with
            | error e => simp [hg2] at h
            | ok rv =>
                simp only [hg2] at h
                by_cases hc : checkVerification rv.content = true
                · rw [if_pos hc] at h
                  simp only [Except.ok.injEq, Prod.mk.injEq] at h
                  obtain ⟨hresp, hcalls⟩ := h
                  subst hresp; subst hcalls
                  constructor
                  · rw [hC, sumCost_append, sumCost_cons, sumCost_cons,
                      sumCost_nil, add_zero, add_assoc]
                    rfl
                  · rw [hU, sumUsage_append, sumUsage_cons, sumUsage_cons,
                      sumUsage_nil, Usage.add_zero, Usage.add_assoc]
                    rfl
                · rw [if_neg hc] at h
                  by_cases hf : fuel' = 0
                  · rw [if_pos hf] at h
                    simp only [Except.ok.injEq, Prod.mk.injEq] at h
                    obtain ⟨hresp, hcalls⟩ := h
                    subst hresp; subst hcalls
                    constructor
                    · rw [hC, sumCost_append, sumCost_cons, sumCost_cons,
                        sumCost_nil, add_zero, add_assoc]
                      rfl
                    · rw [hU, sumUsage_append, sumUsage_cons, sumUsage_cons,
                        sumUsage_nil, Usage.add_zero, Usage.add_assoc]
                      rfl
                  · rw [if_neg hf] at h
                    refine ih _ _ _ _ _ _ _ _ _ _ ?_ ?_ h
                    · rw [hC, sumCost_append, sumCost_cons, sumCost_cons,
                        sumCost_nil, add_zero, add_assoc]
                      rfl
                    · rw [hU, sumUsage_append, sumUsage_cons, sumUsage_cons,
                        sumUsage_nil, Usage.add_zero, Usage.add_assoc]
                      rfl

/-- C4: the totals of the final response are summed over every chat and
verification call actually made across all attempts: `totalCost` is the sum
of the provider cost-table results for each call in the trace, and
`totalUsage.totalTokens` is the sum of the token totals of those calls. -/
theorem totals_sum_over_all_calls :
    ∀ (cfg : VettingConfig) (gen : Nat → Except String GenResult)
      (cost : String → Usage → ℚ) (resp : VettingResponse)
      (calls : List CallRecord),
      process cfg gen cost = .ok (resp, calls) →
      resp.totalCost = sumCost cost calls ∧
        resp.totalUsage.totalTokens = sumTokens calls := by
  intro cfg gen cost resp calls h
  suffices hs : resp.totalCost = sumCost cost calls ∧
      resp.totalUsage = sumUsage calls by
    exact ⟨hs.1, by rw [hs.2, sumUsage_totalTokens]⟩
  rw [process] at h
  cases hmode : cfg.mode with
  | chat =>
      rw [hmode] at h
      cases hg : gen 0 with
      | error e => simp [hg] at h
      | ok rc =>
          simp only [hg] at h
          by_cases hsafe : safetyFires rc = true
          · rw [if_pos hsafe] at h
            simp only [Except.ok.injEq, Prod.mk.injEq] at h
            obtain ⟨hresp, hcalls⟩ := h
            subst hresp; subst hcalls
            constructor
            · rw [sumCost_cons, sumCost_nil, add_zero]
              rfl
            · rw [sumUsage_cons, sumUsage_nil, Usage.add_zero]
              rfl
          · rw [if_neg hsafe] at h
            simp only [Except.ok.injEq, Prod.mk.injEq] at h
            obtain ⟨hresp, hcalls⟩ := h
            subst hresp; subst hcalls
            constructor
            · rw [sumCost_cons, sumCost_nil, add_zero]
              rfl
            · rw [sumUsage_cons, sumUsage_nil, Usage.add_zero]
              rfl
  | vetting =>
      rw [hmode] at h
      exact vettingLoop_totals cfg gen cost cfg.maxAttempts 1 0 [] [] 0 Usage.zero
        Usage.zero Usage.zero resp calls rfl rfl h

/-- C4 witness: on the sample pass-first vetting run, the response totals
equal the sums over the two calls of the trace. -/
theorem totals_sum_over_all_calls_witness :
    ∃ (resp : VettingResponse) (calls : List CallRecord),
      process cfgVetSample genPassFirst costSample = .ok (resp, calls) ∧
      resp.totalCost = sumCost costSample calls ∧
        resp.totalUsage.totalTokens = sumTokens calls := by
  obtain ⟨resp, calls, hrun⟩ :
      ∃ resp calls, process cfgVetSample genPassFirst costSample
        = .ok (resp, calls) := ⟨_, _, rfl⟩
  obtain ⟨h1, h2⟩ := totals_sum_over_all_calls cfgVetSample genPassFirst costSample
    resp calls hrun
  exact ⟨resp, calls, hrun, h1, h2⟩

/-! ## Counting chat and verification calls in a trace -/

theorem isChat_chatRecord (cfg : VettingConfig) (cost : String → Usage → ℚ)
    (r : GenResult) : (chatRecord cfg cost r).isChat = true := rfl

theorem isChat_verRecord (cfg : VettingConfig) (cost : String → Usage → ℚ)
    (r : GenResult) : (verRecord cfg cost r).isChat = false := rfl

theorem isVerification_chatRecord (cfg : VettingConfig) (cost : String → Usage → ℚ)
    (r : GenResult) : (chatRecord cfg cost r).isVerification = false := rfl

theorem isVerification_verRecord (cfg : VettingConfig) (cost : String → Usage → ℚ)
    (r : GenResult) : (verRecord cfg cost r).isVerification = true := rfl

theorem countChat_append_pair (calls : List CallRecord) (cfg : VettingConfig)
    (cost : String → Usage → ℚ) (rc rv : GenResult) :
    countChat (calls ++ [chatRecord cfg cost rc, verRecord cfg cost rv])
      = countChat calls + 1 := by
  simp [countChat, List.countP_append, List.countP_cons, isChat_chatRecord,
    isChat_verRecord]

theorem countVer_append_pair (calls : List CallRecord) (cfg : VettingConfig)
    (cost : String → Usage → ℚ) (rc rv : GenResult) :
    countVer (calls ++ [chatRecord cfg cost rc, verRecord cfg cost rv])
      = countVer calls + 1 := by
  simp [countVer, List.countP_append, List.countP_cons, isVerification_chatRecord,
    isVerification_verRecord]

theorem countChat_append_chat (calls : List CallRecord) (cfg : VettingConfig)
    (cost : String → Usage → ℚ) (rc : GenResult) :
    countChat (calls ++ [chatRecord cfg cost rc]) = countChat calls + 1 := by
  simp [countChat, List.countP_append, List.countP_cons, isChat_chatRecord]

theorem countVer_append_chat (calls : List CallRecord) (cfg : VettingConfig)
    (cost : String → Usage → ℚ) (rc : GenResult) :
    countVer (calls ++ [chatRecord cfg cost rc]) = countVer calls := by
  simp [countVer, List.countP_append, List.countP_cons, isVerification_chatRecord]

/-! ## Claim C3: all attempts fail in vetting mode -/

theorem vettingLoop_allFail :
    ∀ (cfg : VettingConfig) (gen : Nat → Except String GenResult)
      (cost : String → Usage → ℚ) (fuel : Nat),
      ∀ attempt callIdx atts calls accCost accUsage accChat accVer,
        0 < fuel →
        (∀ j, j < fuel → ∃ rc, gen (callIdx + 2*j) = .ok rc ∧
          safetyFires rc = false) →
        (∀ j, j < fuel → ∃ rv, gen (callIdx + 2*j + 1) = .ok rv ∧
          checkVerification rv.content = false) →
        ∃ resp outCalls,
          vettingLoop cfg gen cost fuel attempt callIdx atts calls accCost accUsage
              accChat accVer = .ok (resp, outCalls) ∧
          resp.stopReason = .MAX_ATTEMPTS_REACHED ∧
          resp.requiresAttention = true ∧
          resp.verificationPassed = some false ∧
          resp.attemptCount = attempt + (fuel - 1) ∧
          (∃ rcLast, gen (callIdx + 2*(fuel - 1)) = .ok rcLast ∧
            resp.content = rcLast.content) ∧
          countChat outCalls = countChat calls + fuel ∧
          countVer outCalls = countVer calls + fuel := by
  intro cfg gen cost fuel
  induction fuel with
  | zero =>
      intro attempt callIdx atts calls accCost accUsage accChat accVer hpos
      omega
  | succ fuel' ih =>
      intro attempt callIdx atts calls accCost accUsage accChat accVer hpos
        hchat hver
      obtain ⟨rc0, hrc0, hsafe0⟩ := hchat 0 (by omega)
      obtain ⟨rv0, hrv0, hfail0⟩ := hver 0 (by omega)
      simp only [Nat.mul_zero, Nat.add_zero] at hrc0 hrv0
      have htrig0 : (extractSafetyPrefix rc0.content).2 = false := by
        have h2 := hsafe0
        simp only [safetyFires, Bool.or_eq_false_iff] at h2
        exact h2.1
      by_cases hf : fuel' = 0
      · rw [vettingLoop]
        simp only [hrc0, hsafe0, Bool.false_eq_true, if_false, hrv0, hfail0,
          if_pos hf]
        refine ⟨_, _, rfl, rfl, rfl, rfl, ?_, ⟨rc0, ?_,
          extractSafetyPrefix_not_triggered htrig0⟩, ?_, ?_⟩
        · show attempt = attempt + (fuel' + 1 - 1)
          omega
        · rw [show callIdx + 2 * (fuel' + 1 - 1) = callIdx from by omega]
          exact hrc0
        · rw [countChat_append_pair]
          omega
        · rw [countVer_append_pair]
          omega
      · have hfp : 0 < fuel' := Nat.pos_of_ne_zero hf
        have hchat' : ∀ j, j < fuel' → ∃ rc, gen (callIdx + 2 + 2*j) = .ok rc ∧
            safetyFires rc = false := by
          intro j hj
          have h := hchat (j+1) (by omega)
          rwa [show callIdx + 2*(j+1) = callIdx + 2 + 2*j from by omega] at h
        have hver' : ∀ j, j < fuel' → ∃ rv, gen (callIdx + 2 + 2*j + 1) = .ok rv ∧
            checkVerification rv.content = false := by
          intro j hj
          have h := hver (j+1) (by omega)
          rwa [show callIdx + 2*(j+1) + 1 = callIdx + 2 + 2*j + 1 from by omega] at h
        obtain ⟨resp, outCalls, heq, hst, hra, hvp, hac, ⟨rcL, hgL, hcL⟩, hcc, hcv⟩ :=
          ih (attempt + 1) (callIdx + 2)
            (atts ++ [⟨rc0.content, rv0.content, rc0.usage, rv0.usage,
              (chatRecord cfg cost rc0).cost, (verRecord cfg cost rv0).cost, false⟩])
            (calls ++ [chatRecord cfg cost rc0, verRecord cfg cost rv0])
            (accCost + (chatRecord cfg cost rc0).cost + (verRecord cfg cost rv0).cost)
            (accUsage + rc0.usage + rv0.usage) (accChat + rc0.usage)
            (accVer + rv0.usage) hfp hchat' hver'
        rw [vettingLoop]
        simp only [hrc0, hsafe0, Bool.false_eq_true, if_false, hrv0, hfail0,
          if_neg hf]
        refine ⟨resp, outCalls, heq, hst, hra, hvp, ?_, ⟨rcL, ?_, hcL⟩, ?_, ?_⟩
        · rw [hac]; omega
        · rwa [show callIdx + 2*(fuel' + 1 - 1) = callIdx + 2 + 2*(fuel' - 1)
            from by omega]
        · rw [hcc, countChat_append_pair]; omega
        · rw [hcv, countVer_append_pair]; omega

/-- C3: in vetting mode, when no safety trigger occurs and verification fails
on every one of the maxAttempts attempts, `process` returns
MAX_ATTEMPTS_REACHED with requiresAttention true, attemptCount equal to
maxAttempts, content equal to the last attempt's chat response, and the call
trace holds exactly maxAttempts chat calls and maxAttempts verification
calls. -/
theorem vettingMode_max_attempts_reached :
    ∀ (cfg : VettingConfig) (gen : Nat → Except String GenResult)
      (cost : String → Usage → ℚ),
      cfg.mode = .vetting → 0 < cfg.maxAttempts →
      (∀ j, j < cfg.maxAttempts → ∃ rc, gen (2*j) = .ok rc ∧
        safetyFires rc = false) →
      (∀ j, j < cfg.maxAttempts → ∃ rv, gen (2*j + 1) = .ok rv ∧
        checkVerification rv.content = false) →
      ∃ resp outCalls,
        process cfg gen cost = .ok (resp, outCalls) ∧
        resp.stopReason = .MAX_ATTEMPTS_REACHED ∧
        resp.requiresAttention = true ∧
        resp.verificationPassed = some false ∧
        resp.attemptCount = cfg.maxAttempts ∧
        (∃ rcLast, gen (2*(cfg.maxAttempts - 1)) = .ok rcLast ∧
          resp.content = rcLast.content) ∧
        countChat outCalls = cfg.maxAttempts ∧
        countVer outCalls = cfg.maxAttempts := by
  intro cfg gen cost hmode hpos hchat hver
  have hchat0 : ∀ j, j < cfg.maxAttempts → ∃ rc, gen (0 + 2*j) = .ok rc ∧
      safetyFires rc = false := by
    intro j hj
    simpa using hchat j hj
  have hver0 : ∀ j, j < cfg.maxAttempts → ∃ rv, gen (0 + 2*j + 1) = .ok rv ∧
      checkVerification rv.content = false := by
    intro j hj
    simpa using hver j hj
  obtain ⟨resp, outCalls, heq, hst, hra, hvp, hac, ⟨rcL, hgL, hcL⟩, hcc, hcv⟩ :=
    vettingLoop_allFail cfg gen cost cfg.maxAttempts 1 0 [] [] 0 Usage.zero
      Usage.zero Usage.zero hpos hchat0 hver0
  refine ⟨resp, outCalls, ?_, hst, hra, hvp, ?_, ⟨rcL, ?_, hcL⟩, ?_, ?_⟩
  · rw [process, hmode]; exact heq
  · rw [hac]; omega
  · rwa [show 2*(cfg.maxAttempts - 1) = 0 + 2*(cfg.maxAttempts - 1) from by omega]
  · rw [hcc]
    show 0 + cfg.maxAttempts = cfg.maxAttempts
    omega
  · rw [hcv]
    show 0 + cfg.maxAttempts = cfg.maxAttempts
    omega

/-- C3 witness: the three-failures scenario on the sample vetting
configuration. -/
theorem vettingMode_max_attempts_reached_witness :
    ∃ resp outCalls,
      process cfgVetSample genAllFail costSample = .ok (resp, outCalls) ∧
      resp.stopReason = .MAX_ATTEMPTS_REACHED ∧
      resp.requiresAttention = true ∧
      resp.verificationPassed = some false ∧
      resp.attemptCount = cfgVetSample.maxAttempts ∧
      (∃ rcLast, genAllFail (2*(cfgVetSample.maxAttempts - 1)) = .ok rcLast ∧
        resp.content = rcLast.content) ∧
      countChat outCalls = cfgVetSample.maxAttempts ∧
      countVer outCalls = cfgVetSample.maxAttempts := by
  refine vettingMode_max_attempts_reached cfgVetSample genAllFail costSample rfl
    (by decide) ?_ ?_
  · intro j hj
    have hj3 : j < 3 := hj
    match j, hj3 with
    | 0, _ => exact ⟨_, rfl, by decide⟩
    | 1, _ => exact ⟨_, rfl, by decide⟩
    | 2, _ => exact ⟨_, rfl, by decide⟩
  · intro j hj
    have hj3 : j < 3 := hj
    match j, hj3 with
    | 0, _ => exact ⟨_, rfl, by decide⟩
    | 1, _ => exact ⟨_, rfl, by decide⟩
    | 2, _ => exact ⟨_, rfl, by decide⟩

/-! ## Claim C2: safety trigger short-circuits the loop -/

theorem containsSub_append_right :
    ∀ (l₁ l₂ n : List Char), containsSub l₂ n = true →
      containsSub (l₁ ++ l₂) n = true := by
  intro l₁
  induction l₁ with
  | nil => intro l₂ n h; simpa using h
  | cons c cs ih =>
      intro l₂ n h
      rw [List.cons_append, containsSub]
      simp [ih _ _ h]

theorem dropWhitespaceL_suffix :
    ∀ l : List Char, ∃ pre, l = pre ++ dropWhitespaceL l := by
  intro l
  induction l with
  | nil => exact ⟨[], rfl⟩
  | cons c cs ih =>
      by_cases hw : c.isWhitespace
      · obtain ⟨pre, hp⟩ := ih
        refine ⟨c :: pre, ?_⟩
        rw [dropWhitespaceL, if_pos hw, List.cons_append]
        exact congrArg (c :: ·) hp
      · exact ⟨[], by rw [dropWhitespaceL, if_neg hw, List.nil_append]⟩

/-- When the extractor triggered and the text after the sentinel marker holds
no further sentinel occurrence, the filtered text holds no sentinel. -/
theorem no_sentinel_in_filtered {t : String}
    (ht : (extractSafetyPrefix t).2 = true)
    (hrest : containsSub (t.data.drop sentinelChars.length) sentinelChars = false) :
    containsSub (extractSafetyPrefix t).1.data sentinelChars = false := by
  rw [extractSafetyPrefix] at ht ⊢
  by_cases hp : isPrefixOfL sentinelChars t.data
  · rw [if_pos hp]
    show containsSub (dropWhitespaceL (t.data.drop sentinelChars.length))
      sentinelChars = false
    by_contra hc
    rw [Bool.not_eq_false] at hc
    obtain ⟨pre, hpre⟩ := dropWhitespaceL_suffix (t.data.drop sentinelChars.length)
    have hall : containsSub (t.data.drop sentinelChars.length) sentinelChars
        = true := by
      rw [hpre]
      exact containsSub_append_right _ _ _ hc
    rw [hall] at hrest
    cases hrest
  · rw [if_neg hp] at ht
    cases ht

theorem vettingLoop_safety :
    ∀ (cfg : VettingConfig) (gen : Nat → Except String GenResult)
      (cost : String → Usage → ℚ) (k : Nat),
      ∀ fuel attempt callIdx atts calls accCost accUsage accChat accVer rc,
        k < fuel →
        (∀ j, j < k → ∃ rcj, gen (callIdx + 2*j) = .ok rcj ∧
          safetyFires rcj = false) →
        (∀ j, j < k → ∃ rv, gen (callIdx + 2*j + 1) = .ok rv ∧
          checkVerification rv.content = false) →
        gen (callIdx + 2*k) = .ok rc →
        safetyFires rc = true →
        ∃ resp outCalls,
          vettingLoop cfg gen cost fuel attempt callIdx atts calls accCost accUsage
              accChat accVer = .ok (resp, outCalls) ∧
          resp.stopReason = .SAFETY_TRIGGERED ∧
          resp.requiresAttention = true ∧
          resp.content = (extractSafetyPrefix rc.content).1 ∧
          countChat outCalls = countChat calls + (k + 1) ∧
          countVer outCalls = countVer calls + k := by
  intro cfg gen cost k
  induction k with
  | zero =>
      intro fuel attempt callIdx atts calls accCost accUsage accChat accVer rc
        hk hclean hfails hrc hs
      cases fuel with
      | zero => omega
      | succ f =>
          simp only [Nat.mul_zero, Nat.add_zero] at hrc
          rw [vettingLoop]
          simp only [hrc]
          rw [if_pos hs]
          refine ⟨_, _, rfl, rfl, rfl, rfl, ?_, ?_⟩
          · rw [countChat_append_chat]
          · rw [countVer_append_chat]
            omega
  | succ k' ih =>
      intro fuel attempt callIdx atts calls accCost accUsage accChat accVer rc
        hk hclean hfails hrc hs
      cases fuel with
      | zero => omega
      | succ f =>
          obtain ⟨rc0, hrc0, hsafe0⟩ := hclean 0 (by omega)
          obtain ⟨rv0, hrv0, hfail0⟩ := hfails 0 (by omega)
          simp only [Nat.mul_zero, Nat.add_zero] at hrc0 hrv0
          have hclean' : ∀ j, j < k' → ∃ rcj, gen (callIdx + 2 + 2*j) = .ok rcj ∧
              safetyFires rcj = false := by
            intro j hj
            have h := hclean (j+1) (by omega)
            rwa [show callIdx + 2*(j+1) = callIdx + 2 + 2*j from by omega] at h
          have hfails' : ∀ j, j < k' → ∃ rv, gen (callIdx + 2 + 2*j + 1) = .ok rv ∧
              checkVerification rv.content = false := by
            intro j hj
            have h := hfails (j+1) (by omega)
            rwa [show callIdx + 2*(j+1) + 1 = callIdx + 2 + 2*j + 1 from by omega]
              at h
          have hrc' : gen (callIdx + 2 + 2*k') = .ok rc := by
            rwa [show callIdx + 2*(k'+1) = callIdx + 2 + 2*k' from by omega] at hrc
          obtain ⟨resp, outCalls, heq, hst, hra, hcont, hcc, hcv⟩ :=
            ih f (attempt + 1) (callIdx + 2)
              (atts ++ [⟨rc0.content, rv0.content, rc0.usage, rv0.usage,
                (chatRecord cfg cost rc0).cost, (verRecord cfg cost rv0).cost,
                false⟩])
              (calls ++ [chatRecord cfg cost rc0, verRecord cfg cost rv0])
              (accCost + (chatRecord cfg cost rc0).cost +
                (verRecord cfg cost rv0).cost)
              (accUsage + rc0.usage + rv0.usage) (accChat + rc0.usage)
              (accVer + rv0.usage) rc (by omega) hclean' hfails' hrc' hs
          rw [vettingLoop]
          simp only [hrc0, hsafe0, Bool.false_eq_true, if_false, hrv0, hfail0,
            if_neg (show ¬(f = 0) from by omega)]
          refine ⟨resp, outCalls, heq, hst, hra, hcont, ?_, ?_⟩
          · rw [hcc, countChat_append_pair]
            omega
          · rw [hcv, countVer_append_pair]
            omega

/-- C2 (amended): if the safety check fires on the chat response — in chat
mode, or on any attempt of a vetting run whose earlier attempts cleanly
failed verification — `process` stops immediately with SAFETY_TRIGGERED and
requiresAttention true, makes no verification call for that or any later
attempt, and returns as content the filtered text produced by the extractor;
when the extractor triggered and the sentinel did not occur again after the
leading marker, the content holds no sentinel. -/
theorem safety_trigger_short_circuits :
    ∀ (cfg : VettingConfig) (gen : Nat → Except String GenResult)
      (cost : String → Usage → ℚ),
      (∀ rc : GenResult, cfg.mode = .chat → gen 0 = .ok rc →
        safetyFires rc = true →
        ∃ resp, process cfg gen cost = .ok (resp, [chatRecord cfg cost rc]) ∧
          resp.stopReason = .SAFETY_TRIGGERED ∧
          resp.requiresAttention = true ∧
          resp.content = (extractSafetyPrefix rc.content).1 ∧
          ((extractSafetyPrefix rc.content).2 = true →
            containsSub (rc.content.data.drop sentinelChars.length) sentinelChars
              = false →
            containsSub resp.content.data sentinelChars = false)) ∧
      (∀ (k : Nat) (rc : GenResult), cfg.mode = .vetting → k < cfg.maxAttempts →
        (∀ j, j < k → ∃ rcj, gen (2*j) = .ok rcj ∧ safetyFires rcj = false) →
        (∀ j, j < k → ∃ rv, gen (2*j + 1) = .ok rv ∧
          checkVerification rv.content = false) →
        gen (2*k) = .ok rc → safetyFires rc = true →
        ∃ resp outCalls, process cfg gen cost = .ok (resp, outCalls) ∧
          resp.stopReason = .SAFETY_TRIGGERED ∧
          resp.requiresAttention = true ∧
          resp.content = (extractSafetyPrefix rc.content).1 ∧
          countChat outCalls = k + 1 ∧
          countVer outCalls = k ∧
          ((extractSafetyPrefix rc.content).2 = true →
            containsSub (rc.content.data.drop sentinelChars.length) sentinelChars
              = false →
            containsSub resp.content.data sentinelChars = false)) := by
  intro cfg gen cost
  constructor
  · intro rc hmode hgen hs
    rw [process, hmode]
    simp only [hgen]
    rw [if_pos hs]
    refine ⟨_, rfl, rfl, rfl, rfl, ?_⟩
    intro ht hrest
    exact no_sentinel_in_filtered ht hrest
  · intro k rc hmode hk hclean hfails hrc hs
    have hclean0 : ∀ j, j < k → ∃ rcj, gen (0 + 2*j) = .ok rcj ∧
        safetyFires rcj = false := by
      intro j hj
      simpa using hclean j hj
    have hfails0 : ∀ j, j < k → ∃ rv, gen (0 + 2*j + 1) = .ok rv ∧
        checkVerification rv.content = false := by
      intro j hj
      simpa using hfails j hj
    have hrc0 : gen (0 + 2*k) = .ok rc := by simpa using hrc
    obtain ⟨resp, outCalls, heq, hst, hra, hcont, hcc, hcv⟩ :=
      vettingLoop_safety cfg gen cost k cfg.maxAttempts 1 0 [] [] 0 Usage.zero
        Usage.zero Usage.zero rc hk hclean0 hfails0 hrc0 hs
    refine ⟨resp, outCalls, ?_, hst, hra, hcont, ?_, ?_, ?_⟩
    · rw [process, hmode]
      exact heq
    · rw [hcc]
      show 0 + (k + 1) = k + 1
      omega
    · rw [hcv]
      show 0 + k = k
      omega
    · intro ht hrest
      rw [hcont]
      exact no_sentinel_in_filtered ht hrest

/-- C2 counterexample: on a chat response that repeats the sentinel after the
leading marker, `process` stops with SAFETY_TRIGGERED but the returned
content still holds the sentinel token, so the unconditional "does not
contain the sentinel token" reading of the claim is false. -/
theorem safety_trigger_content_counterexample :
    ∃ resp calls,
      process cfgChatSample genDoubleSentinel costSample = .ok (resp, calls) ∧
      resp.stopReason = .SAFETY_TRIGGERED ∧
      containsSub resp.content.data sentinelChars = true := by
  refine ⟨_, _, rfl, rfl, ?_⟩
  decide

/-- C2 witness: safety firing on attempt 2 of a three-attempt vetting run
stops the loop with SAFETY_TRIGGERED after two chat calls and one
verification call, and the filtered content holds no sentinel. -/
theorem safety_trigger_short_circuits_witness :
    ∃ resp outCalls,
      process cfgVetSample genSafetyMidLoop costSample = .ok (resp, outCalls) ∧
      resp.stopReason = .SAFETY_TRIGGERED ∧
      resp.requiresAttention = true ∧
      resp.content = (extractSafetyPrefix rcSafetyMid.content).1 ∧
      countChat outCalls = 2 ∧
      countVer outCalls = 1 ∧
      containsSub resp.content.data sentinelChars = false := by
  obtain ⟨resp, outCalls, heq, hst, hra, hcont, hcc, hcv, hns⟩ :=
    (safety_trigger_short_circuits cfgVetSample genSafetyMidLoop costSample).2 1
      rcSafetyMid rfl (by decide)
      (fun j hj => by
        match j, hj with
        | 0, _ => exact ⟨_, rfl, by decide⟩)
      (fun j hj => by
        match j, hj with
        | 0, _ => exact ⟨_, rfl, by decide⟩)
      rfl (by decide)
  exact ⟨resp, outCalls, heq, hst, hra, hcont, hcc, hcv,
    hns (by decide) (by decide)⟩

